import Mathlib

/-!
Shallow embedding of `holidays.py` (a Google-Calendar holiday poller for a
home-automation host).  Python dictionaries coming from the provider are
modelled as structures, the mutable `Controller` / `DayNode` objects as
explicit state records, and every method as a state-passing function.
Network calls (`service.events().list`, `service.calendarList().list`) are
parameters of the functions that perform them; a raised Python exception is
an `Except.error` / `Option.none` result.
-/

namespace HolidaysGoogle

/-- A plain calendar date, the result of Python `datetime.date()`.  The
midnight datetimes handled by `refresh` are always at 00:00:00 in the
calendar's own timezone, so date granularity is faithful. -/
structure CalDate where
  year : Int
  month : Int
  day : Int
deriving DecidableEq, Repr, Inhabited

def isLeapYear (y : Int) : Bool :=
  y % 4 == 0 && (y % 100 != 0 || y % 400 == 0)

def daysInMonth (y m : Int) : Int :=
  if m == 2 then (if isLeapYear y then 29 else 28)
  else if m == 4 || m == 6 || m == 9 || m == 11 then 30
  else 31

/-- `date + datetime.timedelta(days=1)` at date granularity. -/
def nextDay (d : CalDate) : CalDate :=
  if d.day < daysInMonth d.year d.month then { d with day := d.day + 1 }
  else if d.month < 12 then { year := d.year, month := d.month + 1, day := 1 }
  else { year := d.year + 1, month := 1, day := 1 }

/-- The `start` / `end` field of a provider event: per the provider API it
carries either a `date` key (all-day) or a `dateTime` key (timed). -/
inductive EventBoundary where
  | date (d : CalDate)
  | dateTime (ts : String)
deriving DecidableEq, Repr

/-- Python `'date' in event['start']`. -/
def EventBoundary.hasDate : EventBoundary → Bool
  | .date _ => true
  | .dateTime _ => false

/-- A provider event record.  `stop` models the `'end'` field (`end` is a
Lean keyword).  `transparency` is `none` when the key is absent
(`event.get('transparency')` then yields Python `None`). -/
structure RawEvent where
  transparency : Option String
  start : EventBoundary
  stop : EventBoundary
  summary : String
deriving DecidableEq, Repr

/-- `Controller.is_holiday` (holidays.py lines 122-125). -/
def is_holiday (event : RawEvent) : Bool :=
  decide (event.transparency = some "transparent") &&
    event.start.hasDate && event.stop.hasDate

/-- `dateutil.parser.parse(event['start']['date']).date()`: the parsed
date-only start.  `refresh` evaluates it only under `is_holiday`, where the
`date` key is present, so the fallback value is never observable. -/
def parseStartDate (event : RawEvent) : CalDate :=
  match event.start with
  | .date d => d
  | .dateTime _ => default

/-- Mutable state of a `DayNode` (holidays.py lines 211-247): the pending
flag, the stored date, and the four reported drivers (`ST`, `GV0` month,
`GV1` day, `GV2` year). -/
structure DayNode where
  address : String
  name : String
  futureState : Bool
  currentDate : Option CalDate
  stDriver : Int
  gv0 : Int
  gv1 : Int
  gv2 : Int
deriving DecidableEq, Repr

/-- A freshly constructed `DayNode`: `futureState = False`,
`currentDate = None`, all drivers at their declared default value 0. -/
def DayNode.mk0 (address name : String) : DayNode :=
  { address := address, name := name, futureState := false,
    currentDate := none, stDriver := 0, gv0 := 0, gv1 := 0, gv2 := 0 }

/-- `DayNode.setDate` (lines 217-222): write the three date drivers and the
stored date only when the supplied date differs from the stored one. -/
def DayNode.setDate (node : DayNode) (date : CalDate) : DayNode :=
  if node.currentDate = some date then node
  else { node with currentDate := some date,
                   gv0 := date.month, gv1 := date.day, gv2 := date.year }

/-- `DayNode.setFutureState` (lines 224-225). -/
def DayNode.setFutureState (node : DayNode) : DayNode :=
  { node with futureState := true }

/-- `DayNode.setState` (lines 234-235). -/
def DayNode.setState (node : DayNode) (state : Bool) : DayNode :=
  { node with stDriver := if state then 1 else 0 }

/-- `DayNode.refresh` (lines 227-232): commit the pending flag to the
reported state and reset it. -/
def DayNode.refresh (node : DayNode) : DayNode :=
  if node.futureState then
    { node.setState true with futureState := false }
  else node.setState false

theorem nextDay_ne (d : CalDate) : nextDay d ≠ d := by
  intro h
  unfold nextDay at h
  split at h
  · have hd := congrArg CalDate.day h
    simp only at hd
    omega
  · split at h
    · have hm := congrArg CalDate.month h
      simp only at hm
      omega
    · have hy := congrArg CalDate.year h
      simp only at hy
      omega

theorem DayNode.setDate_currentDate (node : DayNode) (date : CalDate) :
    (node.setDate date).currentDate = some date := by
  unfold DayNode.setDate
  split
  · next h => exact h
  · rfl

theorem DayNode.setDate_of_eq (node : DayNode) (date : CalDate)
    (h : node.currentDate = some date) : node.setDate date = node := by
  unfold DayNode.setDate
  simp [h]

theorem DayNode.setDate_of_ne (node : DayNode) (date : CalDate)
    (h : node.currentDate ≠ some date) :
    node.setDate date =
      { node with currentDate := some date,
                  gv0 := date.month, gv1 := date.day, gv2 := date.year } := by
  unfold DayNode.setDate
  simp [h]

theorem DayNode.setDate_futureState (node : DayNode) (date : CalDate) :
    (node.setDate date).futureState = node.futureState := by
  unfold DayNode.setDate
  split <;> rfl

theorem DayNode.setDate_stDriver (node : DayNode) (date : CalDate) :
    (node.setDate date).stDriver = node.stDriver := by
  unfold DayNode.setDate
  split <;> rfl

theorem DayNode.setDate_setDate (node : DayNode) (date : CalDate) :
    (node.setDate date).setDate date = node.setDate date :=
  DayNode.setDate_of_eq _ _ (node.setDate_currentDate date)

/-- Normal form of the commit step. -/
theorem DayNode.refresh_eq (node : DayNode) :
    node.refresh =
      { node with stDriver := if node.futureState then 1 else 0,
                  futureState := false } := by
  unfold DayNode.refresh DayNode.setState
  cases h : node.futureState <;> simp [h]

/-- C1: `is_holiday(e)` is true iff the transparency marker equals
"transparent" and both the start and the end boundary are date-only
(all-day) rather than timestamped; the summary text is irrelevant. -/
theorem is_holiday_characterization (e : RawEvent) (s : String) :
    (is_holiday e = true ↔
      e.transparency = some "transparent" ∧
        (∃ d, e.start = .date d) ∧ (∃ d, e.stop = .date d)) ∧
    is_holiday { e with summary := s } = is_holiday e := by
  constructor
  · unfold is_holiday
    cases hs : e.start <;> cases he : e.stop <;>
      simp [EventBoundary.hasDate]
  · rfl

/-- C10: calling `setDate` with the currently stored date changes nothing
(none of the three date drivers is rewritten, the stored date is
unchanged); the drivers are written exactly when the supplied date differs
from the stored one. -/
theorem setDate_frame (node : DayNode) (date : CalDate) :
    (node.currentDate = some date → node.setDate date = node) ∧
    (node.currentDate ≠ some date →
      node.setDate date =
        { node with currentDate := some date,
                    gv0 := date.month, gv1 := date.day, gv2 := date.year }) :=
  ⟨node.setDate_of_eq date, node.setDate_of_ne date⟩

theorem setDate_frame_witness :
    { DayNode.mk0 "today0" "A Today" with
        currentDate := some ⟨2024, 5, 17⟩ }.setDate ⟨2024, 5, 17⟩ =
      { DayNode.mk0 "today0" "A Today" with
        currentDate := some ⟨2024, 5, 17⟩ } ∧
    (DayNode.mk0 "today0" "A Today").setDate ⟨2024, 5, 17⟩ =
      { DayNode.mk0 "today0" "A Today" with
          currentDate := some ⟨2024, 5, 17⟩, gv0 := 5, gv1 := 17, gv2 := 2024 } :=
  ⟨(setDate_frame _ _).1 rfl, (setDate_frame _ _).2 (by decide)⟩

/-- C2: at the end of a `DayNode.refresh` commit the reported `ST` state
equals the pending flag's value and the pending flag is reset to false —
even when pending was never set —, a second event-free commit therefore
reads 0, and no other `DayNode` operation (`setFutureState`, `setDate`)
writes the reported `ST` state. -/
theorem dayNode_commit_semantics (node : DayNode) (date : CalDate) :
    node.refresh.stDriver = (if node.futureState then 1 else 0) ∧
    node.refresh.futureState = false ∧
    node.refresh.refresh.stDriver = 0 ∧
    node.setFutureState.stDriver = node.stDriver ∧
    (node.setDate date).stDriver = node.stDriver := by
  refine ⟨?_, ?_, ?_, rfl, node.setDate_stDriver date⟩
  · rw [DayNode.refresh_eq]
  · rw [DayNode.refresh_eq]
  · rw [DayNode.refresh_eq, DayNode.refresh_eq]
    simp

/-- A calendar descriptor as returned by the provider's calendar-list
endpoint: the fields of `listEntry` that the program reads. -/
structure CalendarDescriptor where
  id : String
  summary : String
  timeZone : String
deriving DecidableEq, Repr

/-- `CalendarEntry` (holidays.py lines 204-208). -/
structure CalendarEntry where
  calendar : CalendarDescriptor
  todayNode : DayNode
  tomorrowNode : DayNode
deriving DecidableEq, Repr

/-- The body of the per-event loop of `Controller.refresh` (lines 110-118):
a holiday event whose parsed date-only start equals today's date marks the
today node pending, any other holiday event marks the tomorrow node. -/
def processEvent (todayDate : CalDate) (entry : CalendarEntry)
    (event : RawEvent) : CalendarEntry :=
  if is_holiday event then
    let date := parseStartDate event
    if date = todayDate then
      { entry with todayNode := entry.todayNode.setFutureState }
    else
      { entry with tomorrowNode := entry.tomorrowNode.setFutureState }
  else entry

/-- Normal form of the event loop: only the two pending flags change, each
becoming true exactly when some holiday event falls on the matching side of
the today test. -/
theorem foldl_processEvent_eq (todayDate : CalDate) (events : List RawEvent)
    (entry : CalendarEntry) :
    events.foldl (processEvent todayDate) entry =
      { entry with
          todayNode := { entry.todayNode with
            futureState := entry.todayNode.futureState ||
              events.any (fun e => is_holiday e && decide (parseStartDate e = todayDate)) },
          tomorrowNode := { entry.tomorrowNode with
            futureState := entry.tomorrowNode.futureState ||
              events.any (fun e => is_holiday e && !decide (parseStartDate e = todayDate)) } } := by
  induction events generalizing entry with
  | nil => simp
  | cons e es ih =>
    rw [List.foldl_cons, ih]
    unfold processEvent DayNode.setFutureState
    by_cases h1 : is_holiday e
    · by_cases h2 : parseStartDate e = todayDate <;>
        simp [h1, h2, Bool.or_assoc]
    · simp [h1]

/-- C3: starting with both pending flags at their default false, the event
loop of a refresh pass marks the today indicator pending-true exactly when
some returned holiday event's date-only start equals today's date, and the
tomorrow indicator pending-true exactly when some returned holiday event's
start equals tomorrow's date (the only later date inside the two-day query
window); multiple qualifying events are idempotent and with no qualifying
event pending stays false. -/
theorem refresh_marks_pending (todayDate : CalDate) (events : List RawEvent)
    (entry : CalendarEntry)
    (hToday : entry.todayNode.futureState = false)
    (hTomorrow : entry.tomorrowNode.futureState = false)
    (hWindow : ∀ e ∈ events, is_holiday e = true →
      parseStartDate e = todayDate ∨ parseStartDate e = nextDay todayDate) :
    ((events.foldl (processEvent todayDate) entry).todayNode.futureState = true ↔
      ∃ e ∈ events, is_holiday e = true ∧ parseStartDate e = todayDate) ∧
    ((events.foldl (processEvent todayDate) entry).tomorrowNode.futureState = true ↔
      ∃ e ∈ events, is_holiday e = true ∧ parseStartDate e = nextDay todayDate) := by
  rw [foldl_processEvent_eq]
  simp only [hToday, hTomorrow, Bool.false_or]
  constructor
  · simp [List.any_eq_true, and_assoc]
  · rw [List.any_eq_true]
    constructor
    · rintro ⟨e, he, hprop⟩
      simp only [Bool.and_eq_true, decide_eq_true_eq, Bool.not_eq_true',
        decide_eq_false_iff_not] at hprop
      refine ⟨e, he, hprop.1, ?_⟩
      rcases hWindow e he hprop.1 with h | h
      · exact absurd h hprop.2
      · exact h
    · rintro ⟨e, he, hhol, hdate⟩
      refine ⟨e, he, ?_⟩
      simp only [Bool.and_eq_true, decide_eq_true_eq, Bool.not_eq_true',
        decide_eq_false_iff_not]
      exact ⟨hhol, by rw [hdate]; exact nextDay_ne todayDate⟩

/-- Concrete data for witnesses: one all-day transparent event on
2024-05-17 and one on 2024-05-18. -/
def demoHolidayToday : RawEvent :=
  { transparency := some "transparent", start := .date ⟨2024, 5, 17⟩,
    stop := .date ⟨2024, 5, 18⟩, summary := "Holiday A" }

def demoHolidayTomorrow : RawEvent :=
  { transparency := some "transparent", start := .date ⟨2024, 5, 18⟩,
    stop := .date ⟨2024, 5, 19⟩, summary := "Holiday B" }

def demoCalendarA : CalendarDescriptor :=
  { id := "idA", summary := "A", timeZone := "America/New_York" }

def demoEntryA : CalendarEntry :=
  { calendar := demoCalendarA,
    todayNode := DayNode.mk0 "today0" "A Today",
    tomorrowNode := DayNode.mk0 "tmrow0" "A Tomorrow" }

theorem refresh_marks_pending_witness :
    (([demoHolidayToday, demoHolidayTomorrow].foldl
        (processEvent ⟨2024, 5, 17⟩) demoEntryA).todayNode.futureState = true ↔
      ∃ e ∈ [demoHolidayToday, demoHolidayTomorrow],
        is_holiday e = true ∧ parseStartDate e = ⟨2024, 5, 17⟩) ∧
    (([demoHolidayToday, demoHolidayTomorrow].foldl
        (processEvent ⟨2024, 5, 17⟩) demoEntryA).tomorrowNode.futureState = true ↔
      ∃ e ∈ [demoHolidayToday, demoHolidayTomorrow],
        is_holiday e = true ∧ parseStartDate e = nextDay ⟨2024, 5, 17⟩) :=
  refresh_marks_pending ⟨2024, 5, 17⟩ [demoHolidayToday, demoHolidayTomorrow]
    demoEntryA rfl rfl (by decide)

/-- One page returned by `service.calendarList().list(pageToken=...)`. -/
structure CalendarPage where
  items : List CalendarDescriptor
  nextPageToken : Option String
deriving DecidableEq, Repr

/-- The name-keyed directory `calendarList`, modelling a Python dict:
assignment to an existing key replaces its value in place, a new key is
appended. -/
abbrev CalendarDirectory := List (String × CalendarDescriptor)

def dictInsert (dict : CalendarDirectory) (key : String)
    (value : CalendarDescriptor) : CalendarDirectory :=
  if dict.any (fun pair => pair.1 = key) then
    dict.map (fun pair => if pair.1 = key then (key, value) else pair)
  else dict ++ [(key, value)]

def dictGet (dict : CalendarDirectory) (key : String) :
    Option CalendarDescriptor :=
  (dict.find? (fun pair => pair.1 = key)).map (fun pair => pair.2)

def dictKeys (dict : CalendarDirectory) : List String :=
  dict.map (fun pair => pair.1)

/-- Python truthiness test `if not pageToken` on the token variable. -/
def tokenFalsy : Option String → Bool
  | none => true
  | some s => s = ""

/-- The pagination loop of `Controller.process_config` (lines 156-165),
with fuel standing in for the unbounded `while True`; `none` means the
loop did not finish within the given fuel.  Faithful to the source, the
statement `pageToken = list.get('nextPageToken')` sits INSIDE the per-item
`for` loop, so a page with an empty item list leaves `pageToken`
unchanged. -/
def fetchPages (fetch : Option String → CalendarPage) :
    Nat → Option String → CalendarDirectory → Option CalendarDirectory
  | 0, _, _ => none
  | fuel + 1, pageToken, dict =>
    let page := fetch pageToken
    let step := page.items.foldl
      (fun acc item => (dictInsert acc.1 item.summary item, page.nextPageToken))
      (dict, pageToken)
    if tokenFalsy step.2 then some step.1
    else fetchPages fetch fuel step.2 step.1

/-- The per-item fold of one page splits into the dictionary insertions and
the final token value (unchanged iff the page is empty). -/
theorem page_foldl_eq (items : List CalendarDescriptor)
    (dict : CalendarDirectory) (t0 tok : Option String) :
    items.foldl (fun acc item => (dictInsert acc.1 item.summary item, tok))
        (dict, t0) =
      (items.foldl (fun d item => dictInsert d item.summary item) dict,
        if items.isEmpty then t0 else tok) := by
  induction items generalizing dict t0 with
  | nil => rfl
  | cons item rest ih =>
    rw [List.foldl_cons, List.foldl_cons, ih]
    simp

/-- The failing directory: page one holds one calendar and a continuation
token, the page at that token has an empty item list and no token. -/
def stuckFetch : Option String → CalendarPage := fun t =>
  match t with
  | none =>
    { items := [{ id := "c1", summary := "Holidays", timeZone := "UTC" }],
      nextPageToken := some "page2" }
  | some _ => { items := [], nextPageToken := none }

theorem stuckFetch_aux (fuel : Nat) (dict : CalendarDirectory) :
    fetchPages stuckFetch fuel (some "page2") dict = none := by
  induction fuel generalizing dict with
  | zero => rfl
  | succ n ih =>
    rw [fetchPages]
    simp only [stuckFetch, List.foldl_nil]
    rw [if_neg (by simp [tokenFalsy])]
    exact ih dict

/-- C5: the pagination loop does NOT terminate on every finite page
sequence: when the page reached by a continuation token has an empty item
list, the token variable is never updated (the update statement sits inside
the per-item loop) and the same page is fetched forever — no amount of fuel
makes the loop finish. -/
theorem fetchPages_stuck_on_empty_page (fuel : Nat) :
    fetchPages stuckFetch fuel none [] = none := by
  cases fuel with
  | zero => rfl
  | succ n =>
    rw [fetchPages]
    simp only [stuckFetch, List.foldl_cons, List.foldl_nil]
    rw [if_neg (by simp [tokenFalsy])]
    exact stuckFetch_aux n _

/-- A well-formed chain of pages: fetching the start token yields the first
page, and each page's continuation token leads to the rest; the chain ends
exactly at the first page whose token is falsy. -/
def Linked (fetch : Option String → CalendarPage) :
    Option String → List CalendarPage → Prop
  | _, [] => False
  | t, page :: rest =>
    fetch t = page ∧
      (if tokenFalsy page.nextPageToken then rest = []
       else Linked fetch page.nextPageToken rest)

/-- Decidable version of `Linked`, for concrete witnesses. -/
def linkedChain (fetch : Option String → CalendarPage) :
    Option String → List CalendarPage → Bool
  | _, [] => false
  | t, page :: rest =>
    decide (fetch t = page) &&
      (if tokenFalsy page.nextPageToken then rest.isEmpty
       else linkedChain fetch page.nextPageToken rest)

theorem linkedChain_iff (fetch : Option String → CalendarPage)
    (t : Option String) (pages : List CalendarPage) :
    linkedChain fetch t pages = true ↔ Linked fetch t pages := by
  induction pages generalizing t with
  | nil => simp [linkedChain, Linked]
  | cons page rest ih =>
    unfold linkedChain Linked
    by_cases h : tokenFalsy page.nextPageToken
    · simp [h, List.isEmpty_iff]
    · simp [h, ih]

theorem fetchPages_linked (fetch : Option String → CalendarPage)
    (pages : List CalendarPage) (t : Option String) (dict : CalendarDirectory)
    (hLinked : Linked fetch t pages)
    (hNonempty : ∀ page ∈ pages, page.items ≠ []) :
    fetchPages fetch pages.length t dict =
      some (((pages.map CalendarPage.items).flatten).foldl
        (fun d item => dictInsert d item.summary item) dict) := by
  induction pages generalizing t dict with
  | nil => exact absurd hLinked (by simp [Linked])
  | cons page rest ih =>
    obtain ⟨hfetch, hrest⟩ := hLinked
    have hne : page.items ≠ [] := hNonempty page (by simp)
    rw [List.length_cons, fetchPages, hfetch, page_foldl_eq]
    simp only [List.isEmpty_iff, hne, if_false]
    by_cases htok : tokenFalsy page.nextPageToken = true
    · rw [if_pos htok]
      rw [if_pos htok] at hrest
      subst hrest
      simp
    · rw [if_neg htok]
      rw [if_neg htok] at hrest
      rw [ih _ _ hrest (fun p hp => hNonempty p (by simp [hp]))]
      simp [List.foldl_append]

theorem dictGet_map_replace (dict : CalendarDirectory) (key name : String)
    (value : CalendarDescriptor) :
    dictGet (dict.map (fun pair => if pair.1 = key then (key, value) else pair))
        name =
      if name = key then
        (if dict.any (fun pair => pair.1 = key) then some value else none)
      else dictGet dict name := by
  induction dict with
  | nil => by_cases h : name = key <;> simp [dictGet, h]
  | cons pair rest ih =>
    unfold dictGet at ih ⊢
    by_cases hk : pair.1 = key
    · by_cases hn : name = key
      · subst hn
        simp [hk, List.find?_cons, List.any_cons]
      · have h1 : ¬ key = name := fun h => hn h.symm
        have h2 : ¬ pair.1 = name := hk ▸ h1
        simp only [List.map_cons, if_pos hk, List.find?_cons, List.any_cons,
          decide_eq_false h1, decide_eq_false h2, decide_eq_true hk]
        simpa [hn] using ih
    · by_cases hn : name = pair.1
      · have h3 : ¬ name = key := fun h => hk (hn.symm.trans h)
        have h4 : pair.1 = name := hn.symm
        simp [hk, List.find?_cons, List.any_cons, h3, h4]
      · have h5 : ¬ pair.1 = name := fun h => hn h.symm
        simp only [List.map_cons, if_neg hk, List.find?_cons, List.any_cons,
          decide_eq_false h5, decide_eq_false hk, Bool.false_or]
        exact ih

theorem dictGet_dictInsert (dict : CalendarDirectory) (key name : String)
    (value : CalendarDescriptor) :
    dictGet (dictInsert dict key value) name =
      if name = key then some value else dictGet dict name := by
  unfold dictInsert
  by_cases hany : dict.any (fun pair => pair.1 = key)
  · rw [if_pos hany, dictGet_map_replace, if_pos hany]
  · rw [if_neg hany]
    unfold dictGet
    rw [List.find?_append]
    by_cases hn : name = key
    · subst hn
      have hfind : dict.find? (fun pair => decide (pair.1 = name)) = none := by
        rw [List.find?_eq_none]
        intro pair hp
        simp only [decide_eq_true_eq]
        intro hcontra
        exact hany (List.any_eq_true.mpr ⟨pair, hp, by simpa using hcontra⟩)
      simp [hfind, List.find?_cons]
    · have h6 : ¬ key = name := fun h => hn h.symm
      simp only [List.find?_cons, decide_eq_false h6]
      cases hfind : dict.find? (fun pair => decide (pair.1 = name)) <;>
        simp [hfind, hn]

/-- Last write wins: a lookup in the directory built by inserting `items`
in order returns the LAST inserted descriptor with the looked-up name. -/
theorem dictGet_foldl_insert (items : List CalendarDescriptor) (name : String) :
    dictGet (items.foldl (fun d item => dictInsert d item.summary item) [])
        name =
      items.reverse.find? (fun item => item.summary = name) := by
  induction items using List.reverseRecOn with
  | nil => rfl
  | append_singleton rest item ih =>
    rw [List.foldl_append, List.foldl_cons, List.foldl_nil,
        dictGet_dictInsert, List.reverse_append]
    simp only [List.reverse_cons, List.reverse_nil, List.nil_append,
      List.singleton_append, List.find?_cons]
    by_cases h : name = item.summary
    · have h2 : item.summary = name := h.symm
      rw [if_pos h, decide_eq_true h2]
    · have h2 : ¬ item.summary = name := fun hc => h hc.symm
      rw [if_neg h, decide_eq_false h2, ih]

/-- C6: for a directory spread over `k` pages of entries linked by
continuation tokens, the pagination loop terminates with the mapping that
contains exactly the union of all pages' entries keyed by display name,
and on a name collision the later-processed entry's descriptor wins. -/
theorem pagination_union (fetch : Option String → CalendarPage)
    (pages : List CalendarPage)
    (hLinked : linkedChain fetch none pages = true)
    (hNonempty : ∀ page ∈ pages, page.items ≠ []) :
    fetchPages fetch pages.length none [] =
      some (((pages.map CalendarPage.items).flatten).foldl
        (fun d item => dictInsert d item.summary item) []) ∧
    ∀ name,
      dictGet (((pages.map CalendarPage.items).flatten).foldl
          (fun d item => dictInsert d item.summary item) []) name =
        ((pages.map CalendarPage.items).flatten).reverse.find?
          (fun item => item.summary = name) :=
  ⟨fetchPages_linked fetch pages none []
      ((linkedChain_iff fetch none pages).mp hLinked) hNonempty,
    fun name => dictGet_foldl_insert _ name⟩

def demoCalendarB : CalendarDescriptor :=
  { id := "idB", summary := "B", timeZone := "UTC" }

def demoCalendarB2 : CalendarDescriptor :=
  { id := "idB2", summary := "B", timeZone := "Europe/Paris" }

/-- A two-page chain with a display-name collision across pages. -/
def demoTwoPageFetch : Option String → CalendarPage := fun t =>
  match t with
  | none => { items := [demoCalendarA, demoCalendarB], nextPageToken := some "p2" }
  | some _ => { items := [demoCalendarB2], nextPageToken := none }

theorem pagination_union_witness :
    fetchPages demoTwoPageFetch 2 none [] =
      some ((([{ items := [demoCalendarA, demoCalendarB], nextPageToken := some "p2" },
               { items := [demoCalendarB2], nextPageToken := none }].map
          CalendarPage.items).flatten).foldl
        (fun d item => dictInsert d item.summary item) []) ∧
    ∀ name,
      dictGet ((([{ items := [demoCalendarA, demoCalendarB], nextPageToken := some "p2" },
                  { items := [demoCalendarB2], nextPageToken := none }].map
          CalendarPage.items).flatten).foldl
          (fun d item => dictInsert d item.summary item) []) name =
        ((([{ items := [demoCalendarA, demoCalendarB], nextPageToken := some "p2" },
            { items := [demoCalendarB2], nextPageToken := none }].map
          CalendarPage.items).flatten).reverse.find?
          (fun item => item.summary = name)) :=
  pagination_union demoTwoPageFetch
    [{ items := [demoCalendarA, demoCalendarB], nextPageToken := some "p2" },
     { items := [demoCalendarB2], nextPageToken := none }]
    (by decide) (by decide)

/-- The provider's event-list query: calendar id, `timeMin` and `timeMax`
(the midnight datetimes whose isoformat the code passes) to the list of
returned items; `Except.error` is a raised network/API exception. -/
abbrev EventService := String → CalDate → CalDate → Except String (List RawEvent)

/-- `datetime.datetime.now(pytz.timezone(tz))` truncated to midnight: the
current date in a given IANA timezone. -/
abbrev LocalClock := String → CalDate

/-- Lines 101-106 of `Controller.refresh`: compute today/tomorrow in the
calendar's timezone and set both nodes' target dates. -/
def setDates (clock : LocalClock) (entry : CalendarEntry) : CalendarEntry :=
  let todayDate := clock entry.calendar.timeZone
  { entry with todayNode := entry.todayNode.setDate todayDate,
               tomorrowNode := entry.tomorrowNode.setDate (nextDay todayDate) }

/-- Lines 107-109: `service.events().list(calendarId=..., timeMin=todayDate,
timeMax=endDate, singleEvents=True).execute()`, with
`endDate = todayDate + 2 days`. -/
def queryEvents (service : EventService) (clock : LocalClock)
    (entry : CalendarEntry) : Except String (List RawEvent) :=
  let todayDate := clock entry.calendar.timeZone
  service entry.calendar.id todayDate (nextDay (nextDay todayDate))

/-- Lines 119-120: commit both day nodes. -/
def commitEntry (entry : CalendarEntry) : CalendarEntry :=
  { entry with todayNode := entry.todayNode.refresh,
               tomorrowNode := entry.tomorrowNode.refresh }

/-- The per-calendar loop of `Controller.refresh` (lines 98-120).  The
source has no try/except here: an exception raised by the events query
propagates immediately, so the returned pair is the list state at the point
of the error (mutations already performed are kept, later entries are left
untouched) together with the escaped error. -/
def refreshCalendars (service : EventService) (clock : LocalClock) :
    List CalendarEntry → List CalendarEntry × Option String
  | [] => ([], none)
  | entry :: rest =>
    let entry1 := setDates clock entry
    match queryEvents service clock entry1 with
    | .error msg => (entry1 :: rest, some msg)
    | .ok events =>
      let entry2 := commitEntry (events.foldl
        (processEvent (clock entry1.calendar.timeZone)) entry1)
      let result := refreshCalendars service clock rest
      (entry2 :: result.1, result.2)

/-- The `typedCustomData` blob of a host configuration event. -/
structure TypedConfig where
  token : String
  calendarName : Option (List String)
deriving DecidableEq, Repr

/-- A host configuration event as received by `process_config`. -/
structure ConfigInput where
  typedCustomData : Option TypedConfig
deriving DecidableEq, Repr

/-- Mutable state of the `Controller` object, as far as the embedded
methods read or write it.  `serviceOpen` is `self.service is not None`;
`errorLog` collects `LOGGER.error` messages; `calendarList` is the
published key set (`none` models the initial plain list, which never
compares equal to a dict key view). -/
structure ControllerState where
  calendars : List CalendarEntry
  calendarList : Option (List String)
  serviceOpen : Bool
  isStarted : Bool
  storedConfig : Option ConfigInput
  errorLog : List String
  docs : Option String
deriving Repr

/-- `Controller.refresh` (lines 94-120): a no-op before `start`, otherwise
the per-calendar loop; the second component is an exception escaping the
method. -/
def Controller.refresh (service : EventService) (clock : LocalClock)
    (self : ControllerState) : ControllerState × Option String :=
  if !self.isStarted then (self, none)
  else
    let result := refreshCalendars service clock self.calendars
    ({ self with calendars := result.1 }, result.2)

/-- `Controller.longPoll` (lines 88-92): run `refresh`, catching and
logging any exception. -/
def Controller.longPoll (service : EventService) (clock : LocalClock)
    (self : ControllerState) : ControllerState :=
  let result := Controller.refresh service clock self
  match result.2 with
  | none => result.1
  | some msg =>
    { result.1 with
        errorLog := result.1.errorLog ++ ["Error refreshing calendars: " ++ msg] }

theorem setDates_calendar (clock : LocalClock) (entry : CalendarEntry) :
    (setDates clock entry).calendar = entry.calendar := rfl

theorem queryEvents_setDates (service : EventService) (clock : LocalClock)
    (entry : CalendarEntry) :
    queryEvents service clock (setDates clock entry) =
      queryEvents service clock entry := rfl

theorem setDates_setDates (clock : LocalClock) (entry : CalendarEntry) :
    setDates clock (setDates clock entry) = setDates clock entry := by
  unfold setDates
  simp only
  rw [DayNode.setDate_setDate, DayNode.setDate_setDate]

theorem refreshCalendars_cons_err (service : EventService) (clock : LocalClock)
    (entry : CalendarEntry) (rest : List CalendarEntry) (msg : String)
    (hq : queryEvents service clock entry = .error msg) :
    refreshCalendars service clock (entry :: rest) =
      (setDates clock entry :: rest, some msg) := by
  have hq1 : queryEvents service clock (setDates clock entry) = .error msg := hq
  rw [refreshCalendars]
  simp only [hq1]

theorem refreshCalendars_cons_ok (service : EventService) (clock : LocalClock)
    (entry : CalendarEntry) (rest : List CalendarEntry) (events : List RawEvent)
    (hq : queryEvents service clock entry = .ok events) :
    refreshCalendars service clock (entry :: rest) =
      (commitEntry (events.foldl
          (processEvent (clock entry.calendar.timeZone)) (setDates clock entry)) ::
            (refreshCalendars service clock rest).1,
        (refreshCalendars service clock rest).2) := by
  have hq1 : queryEvents service clock (setDates clock entry) = .ok events := hq
  rw [refreshCalendars]
  simp only [hq1]
  rfl

theorem DayNode.refresh_withFs (node : DayNode) (b : Bool) :
    DayNode.refresh { node with futureState := b } =
      { node with futureState := false, stDriver := if b then 1 else 0 } := by
  rw [DayNode.refresh_eq]

/-- Normal form of one successfully refreshed calendar entry. -/
theorem refresh_head_nf (clock : LocalClock) (entry : CalendarEntry)
    (events : List RawEvent) :
    commitEntry (events.foldl
        (processEvent (clock entry.calendar.timeZone)) (setDates clock entry)) =
      { calendar := entry.calendar,
        todayNode :=
          { entry.todayNode.setDate (clock entry.calendar.timeZone) with
              futureState := false,
              stDriver :=
                if entry.todayNode.futureState ||
                    events.any (fun e => is_holiday e &&
                      decide (parseStartDate e = clock entry.calendar.timeZone))
                then 1 else 0 },
        tomorrowNode :=
          { entry.tomorrowNode.setDate (nextDay (clock entry.calendar.timeZone)) with
              futureState := false,
              stDriver :=
                if entry.tomorrowNode.futureState ||
                    events.any (fun e => is_holiday e &&
                      !decide (parseStartDate e = clock entry.calendar.timeZone))
                then 1 else 0 } } := by
  rw [foldl_processEvent_eq]
  unfold commitEntry setDates
  simp only [DayNode.refresh_eq, DayNode.setDate_futureState]

/-- `setDate` is a no-op on a node whose stored date was produced by a
`setDate` with the same date, irrespective of later pending/state
updates. -/
theorem DayNode.setDate_update (n : DayNode) (d : CalDate) (b : Bool) (s : Int) :
    DayNode.setDate
        { address := (n.setDate d).address, name := (n.setDate d).name,
          futureState := b, currentDate := (n.setDate d).currentDate,
          stDriver := s, gv0 := (n.setDate d).gv0, gv1 := (n.setDate d).gv1,
          gv2 := (n.setDate d).gv2 } d =
      { address := (n.setDate d).address, name := (n.setDate d).name,
        futureState := b, currentDate := (n.setDate d).currentDate,
        stDriver := s, gv0 := (n.setDate d).gv0, gv1 := (n.setDate d).gv1,
        gv2 := (n.setDate d).gv2 } :=
  DayNode.setDate_of_eq _ _ (n.setDate_currentDate d)

/-- Refreshing the already-refreshed calendar list with the same provider
data gives exactly the same result, provided every pending flag started at
its invariant value false. -/
theorem refreshCalendars_idem (service : EventService) (clock : LocalClock)
    (l : List CalendarEntry)
    (hfs : ∀ entry ∈ l, entry.todayNode.futureState = false ∧
      entry.tomorrowNode.futureState = false) :
    refreshCalendars service clock (refreshCalendars service clock l).1 =
      refreshCalendars service clock l := by
  induction l with
  | nil => rfl
  | cons entry rest ih =>
    obtain ⟨hT, hM⟩ := hfs entry (by simp)
    have hrest : ∀ e ∈ rest, e.todayNode.futureState = false ∧
        e.tomorrowNode.futureState = false := fun e he => hfs e (by simp [he])
    cases hq : queryEvents service clock entry with
    | error msg =>
      rw [refreshCalendars_cons_err _ _ _ _ _ hq]
      have hq2 : queryEvents service clock (setDates clock entry) = .error msg := hq
      rw [refreshCalendars_cons_err _ _ _ _ _ hq2, setDates_setDates]
    | ok events =>
      rw [refreshCalendars_cons_ok _ _ _ _ _ hq]
      have hcal :
          (commitEntry (events.foldl
            (processEvent (clock entry.calendar.timeZone))
            (setDates clock entry))).calendar = entry.calendar := by
        rw [refresh_head_nf]
      have hq3 : queryEvents service clock
          (commitEntry (events.foldl
            (processEvent (clock entry.calendar.timeZone))
            (setDates clock entry))) = .ok events := by
        unfold queryEvents
        rw [hcal]
        exact hq
      rw [refreshCalendars_cons_ok _ _ _ _ _ hq3, ih hrest]
      have hfix : commitEntry (events.foldl
          (processEvent (clock (commitEntry (events.foldl
            (processEvent (clock entry.calendar.timeZone))
            (setDates clock entry))).calendar.timeZone))
          (setDates clock (commitEntry (events.foldl
            (processEvent (clock entry.calendar.timeZone))
            (setDates clock entry))))) =
          commitEntry (events.foldl
            (processEvent (clock entry.calendar.timeZone))
            (setDates clock entry)) := by
        rw [refresh_head_nf clock entry events]
        rw [refresh_head_nf clock _ events]
        simp only [hT, hM, Bool.false_or]
        rw [DayNode.setDate_update, DayNode.setDate_update]
      rw [hfix]

/-- The committed (reported) holiday states of all indicators: the `ST`
driver of the today and tomorrow node of every configured calendar. -/
def committedStates (self : ControllerState) : List (Int × Int) :=
  self.calendars.map
    (fun entry => (entry.todayNode.stDriver, entry.tomorrowNode.stDriver))

/-- C9: running `refresh` twice in succession with the same provider data
(same clock, same returned events) leaves every indicator's committed
reported state unchanged by the second run, provided the pending flags hold
their invariant value false at the start. -/
theorem refresh_refresh_committed (service : EventService) (clock : LocalClock)
    (self : ControllerState)
    (hfs : ∀ entry ∈ self.calendars, entry.todayNode.futureState = false ∧
      entry.tomorrowNode.futureState = false) :
    committedStates (Controller.refresh service clock
        (Controller.refresh service clock self).1).1 =
      committedStates (Controller.refresh service clock self).1 := by
  unfold Controller.refresh
  cases hst : self.isStarted with
  | false => simp [hst]
  | true =>
    simp only [hst, Bool.not_true, Bool.false_eq_true, if_false]
    rw [refreshCalendars_idem service clock self.calendars hfs]

def demoClock : LocalClock := fun _ => ⟨2024, 5, 17⟩

def demoService : EventService := fun _ _ _ => .ok [demoHolidayToday]

def demoControllerState : ControllerState :=
  { calendars := [demoEntryA], calendarList := none, serviceOpen := true,
    isStarted := true, storedConfig := none, errorLog := [], docs := none }

theorem refresh_refresh_committed_witness :
    committedStates (Controller.refresh demoService demoClock
        (Controller.refresh demoService demoClock demoControllerState).1).1 =
      committedStates
        (Controller.refresh demoService demoClock demoControllerState).1 :=
  refresh_refresh_committed demoService demoClock demoControllerState (by decide)

theorem setDates_today_st (clock : LocalClock) (entry : CalendarEntry) :
    (setDates clock entry).todayNode.stDriver = entry.todayNode.stDriver :=
  DayNode.setDate_stDriver _ _

theorem setDates_tomorrow_st (clock : LocalClock) (entry : CalendarEntry) :
    (setDates clock entry).tomorrowNode.stDriver = entry.tomorrowNode.stDriver :=
  DayNode.setDate_stDriver _ _

def demoCalendarErr : CalendarDescriptor :=
  { id := "idErr", summary := "Err", timeZone := "UTC" }

def cexEntryErr : CalendarEntry :=
  { calendar := demoCalendarErr,
    todayNode := DayNode.mk0 "today0" "Err Today",
    tomorrowNode := DayNode.mk0 "tmrow0" "Err Tomorrow" }

/-- A provider that raises for the `Err` calendar and returns one holiday
event for every other calendar. -/
def cexService : EventService := fun calendarId _ _ =>
  if calendarId = "idErr" then .error "network down"
  else .ok [demoHolidayToday]

def cexState : ControllerState :=
  { calendars := [cexEntryErr, demoEntryA], calendarList := none,
    serviceOpen := true, isStarted := true, storedConfig := none,
    errorLog := [], docs := none }

/-- When every calendar before `bad` answers and `bad`'s query raises, the
per-calendar loop processes the prefix, mutates only the target dates of
`bad`, leaves everything after `bad` untouched, and escapes with the
error. -/
theorem refreshCalendars_append_err (service : EventService) (clock : LocalClock)
    (good : List CalendarEntry) (bad : CalendarEntry) (rest : List CalendarEntry)
    (msg : String)
    (hgood : ∀ e ∈ good, ∃ events, queryEvents service clock e = .ok events)
    (hbad : queryEvents service clock bad = .error msg) :
    refreshCalendars service clock (good ++ bad :: rest) =
      ((refreshCalendars service clock good).1 ++ (setDates clock bad :: rest),
        some msg) := by
  induction good with
  | nil =>
    rw [List.nil_append, refreshCalendars_cons_err _ _ _ _ _ hbad]
    rfl
  | cons g gs ih =>
    obtain ⟨events, hg⟩ := hgood g (by simp)
    rw [List.cons_append, refreshCalendars_cons_ok _ _ _ _ _ hg,
        refreshCalendars_cons_ok _ _ _ _ _ hg,
        ih (fun e he => hgood e (by simp [he]))]
    simp

/-- C4 counterexample: with two configured calendars where the first one's
event query raises and the second has a qualifying holiday event for today,
a long-poll pass leaves BOTH today indicators at 0 — the second calendar is
never processed — although refreshing the second calendar alone commits 1;
the error is logged.  So an error on one calendar does prevent refreshing
the others. -/
theorem refresh_error_skips_remaining :
    (Controller.longPoll cexService demoClock cexState).calendars.map
        (fun e => e.todayNode.stDriver) = [0, 0] ∧
    ((Controller.refresh cexService demoClock
        { cexState with calendars := [demoEntryA] }).1).calendars.map
        (fun e => e.todayNode.stDriver) = [1] ∧
    (Controller.longPoll cexService demoClock cexState).errorLog =
      ["Error refreshing calendars: network down"] := by
  decide

/-- C4 (amended): an event-query error for one calendar during a long-poll
refresh is logged and that calendar's indicators keep their previously
committed reported state (only its target dates were touched), but the
pass ABORTS there: calendars before the failing one in the list were
already refreshed, while the failing calendar and every calendar after it
are left unprocessed for this pass. -/
theorem refresh_error_aborts_pass (service : EventService) (clock : LocalClock)
    (self : ControllerState) (good : List CalendarEntry) (bad : CalendarEntry)
    (rest : List CalendarEntry) (msg : String)
    (hStarted : self.isStarted = true)
    (hcal : self.calendars = good ++ bad :: rest)
    (hgood : ∀ e ∈ good, ∃ events, queryEvents service clock e = .ok events)
    (hbad : queryEvents service clock bad = .error msg) :
    (Controller.longPoll service clock self).calendars =
      (refreshCalendars service clock good).1 ++ (setDates clock bad :: rest) ∧
    (Controller.longPoll service clock self).errorLog =
      self.errorLog ++ ["Error refreshing calendars: " ++ msg] ∧
    (setDates clock bad).todayNode.stDriver = bad.todayNode.stDriver ∧
    (setDates clock bad).tomorrowNode.stDriver = bad.tomorrowNode.stDriver := by
  unfold Controller.longPoll Controller.refresh
  rw [hStarted, hcal, refreshCalendars_append_err service clock good bad rest msg
    hgood hbad]
  exact ⟨rfl, rfl, setDates_today_st clock bad, setDates_tomorrow_st clock bad⟩

theorem refresh_error_aborts_pass_witness :
    (Controller.longPoll cexService demoClock cexState).calendars =
      (refreshCalendars cexService demoClock []).1 ++
        (setDates demoClock cexEntryErr :: [demoEntryA]) ∧
    (Controller.longPoll cexService demoClock cexState).errorLog =
      cexState.errorLog ++ ["Error refreshing calendars: " ++ "network down"] ∧
    (setDates demoClock cexEntryErr).todayNode.stDriver =
      cexEntryErr.todayNode.stDriver ∧
    (setDates demoClock cexEntryErr).tomorrowNode.stDriver =
      cexEntryErr.tomorrowNode.stDriver :=
  refresh_error_aborts_pass cexService demoClock cexState [] cexEntryErr
    [demoEntryA] "network down" rfl rfl (by simp) rfl

/-- Result of the authentication prologue of `process_config`
(lines 137-151): `stop` is an early `return`, `go` continues with an open
service. -/
inductive ConfigAuth where
  | stop (st : ControllerState)
  | go (st : ControllerState)

/-- Lines 137-151 of `process_config`: while `self.service is None`, an
empty token is a logged warning and an early return; otherwise the token is
exchanged (`exchangeToken` abstracts `flow.fetch_token` plus credential
persistence), a failure is logged and returns early, success opens the
service. -/
def authStep (exchangeToken : String → Except String Unit)
    (typedConfig : TypedConfig) (self : ControllerState) : ConfigAuth :=
  if self.serviceOpen then .go self
  else if typedConfig.token = "" then .stop self
  else
    match exchangeToken typedConfig.token with
    | .error msg =>
      .stop { self with
                errorLog := self.errorLog ++ ["Error getting credentials: " ++ msg] }
    | .ok _ => .go { self with serviceOpen := true }

/-- Lines 167-187 of `process_config`: walk the configured name list, log
an error for each name missing from the directory, and build a
`CalendarEntry` with two fresh `DayNode`s (addresses `today<i>`/`tmrow<i>`)
for each name found; the index counts only the found names. -/
def bindCalendars (calendarDict : CalendarDirectory) (names : List String) :
    List CalendarEntry × List String :=
  let result := names.foldl
    (fun (acc : List CalendarEntry × List String × Nat) calendarName =>
      match dictGet calendarDict calendarName with
      | none =>
        (acc.1,
          acc.2.1 ++ ["Cannot find configured calendar name " ++ calendarName],
          acc.2.2)
      | some calendar =>
        (acc.1 ++
          [{ calendar := calendar,
             todayNode := DayNode.mk0 ("today" ++ toString acc.2.2)
               (calendar.summary ++ " Today"),
             tomorrowNode := DayNode.mk0 ("tmrow" ++ toString acc.2.2)
               (calendar.summary ++ " Tomorrow") }],
          acc.2.1, acc.2.2 + 1))
    ([], [], 0)
  (result.1, result.2.1)

/-- The comparison `calendarList.keys() != self.calendarList`
(line 189): a Python dict key view compares equal only to another key view
with the same key set; the initial plain list always compares unequal. -/
def sameKeySet : Option (List String) → List String → Bool
  | none, _ => false
  | some a, b =>
    a.all (fun k => b.contains k) && b.all (fun k => a.contains k)

/-- Lines 191-194: the published HTML listing of available calendars. -/
def renderDocs (keys : List String) : String :=
  "<h3>Configured Calendars</h3><ul>" ++
    String.join (keys.map (fun n => "<li>" ++ n ++ "</li>")) ++ "</ul>"

/-- `Controller.process_config` (lines 127-197).  The overall `Option` is
`none` when the directory pagination never terminates; the inner
`Option String` is an exception escaping the trailing `self.refresh()`
call (which the source does not guard). -/
def Controller.process_config (fetch : Option String → CalendarPage)
    (fuel : Nat) (service : EventService) (clock : LocalClock)
    (exchangeToken : String → Except String Unit)
    (config : ConfigInput) (self : ControllerState) :
    Option (ControllerState × Option String) :=
  if !self.isStarted then
    some ({ self with storedConfig := some config }, none)
  else
    match config.typedCustomData with
    | none => some (self, none)
    | some typedConfig =>
      match authStep exchangeToken typedConfig self with
      | .stop st => some (st, none)
      | .go st =>
        let st1 := { st with calendars := [] }
        match fetchPages fetch fuel none [] with
        | none => none
        | some calendarDict =>
          let bound :=
            match typedConfig.calendarName with
            | none => ([], [])
            | some names => bindCalendars calendarDict names
          let st2 := { st1 with calendars := bound.1,
                                errorLog := st1.errorLog ++ bound.2 }
          let st3 :=
            if sameKeySet st2.calendarList (dictKeys calendarDict) then st2
            else { st2 with calendarList := some (dictKeys calendarDict),
                            docs := some (renderDocs (dictKeys calendarDict)) }
          let result := Controller.refresh service clock st3
          some (result.1, result.2)

/-- The number of day-indicator entities owned by the controller: two per
configured calendar. -/
def numIndicators (self : ControllerState) : Nat := 2 * self.calendars.length

theorem refreshCalendars_length (service : EventService) (clock : LocalClock)
    (l : List CalendarEntry) :
    ((refreshCalendars service clock l).1).length = l.length := by
  induction l with
  | nil => rfl
  | cons entry rest ih =>
    cases hq : queryEvents service clock entry with
    | error msg =>
      rw [refreshCalendars_cons_err _ _ _ _ _ hq]
      simp
    | ok events =>
      rw [refreshCalendars_cons_ok _ _ _ _ _ hq]
      simpa using ih

theorem refreshCalendars_map_calendar (service : EventService)
    (clock : LocalClock) (l : List CalendarEntry) :
    ((refreshCalendars service clock l).1).map (fun e => e.calendar) =
      l.map (fun e => e.calendar) := by
  induction l with
  | nil => rfl
  | cons entry rest ih =>
    cases hq : queryEvents service clock entry with
    | error msg =>
      rw [refreshCalendars_cons_err _ _ _ _ _ hq]
      simp [setDates_calendar]
    | ok events =>
      rw [refreshCalendars_cons_ok _ _ _ _ _ hq]
      simp only [List.map_cons, ih, refresh_head_nf]

/-- C7: applying a configuration rebuilds the configured-calendar list from
scratch — whatever entries existed before (for example A's and B's four
indicators), after applying a configuration naming only `B` the controller
owns exactly one configured calendar, i.e. 2 day-indicator entities, and
they belong to B. -/
theorem process_config_rebuilds (fetch : Option String → CalendarPage)
    (fuel : Nat) (service : EventService) (clock : LocalClock)
    (exchangeToken : String → Except String Unit) (config : ConfigInput)
    (typedConfig : TypedConfig) (self : ControllerState)
    (calendarDict : CalendarDirectory) (calB : CalendarDescriptor)
    (hStarted : self.isStarted = true)
    (hOpen : self.serviceOpen = true)
    (hTyped : config.typedCustomData = some typedConfig)
    (hNames : typedConfig.calendarName = some ["B"])
    (hDict : fetchPages fetch fuel none [] = some calendarDict)
    (hB : dictGet calendarDict "B" = some calB) :
    ∃ st ex,
      Controller.process_config fetch fuel service clock exchangeToken
          config self = some (st, ex) ∧
        numIndicators st = 2 ∧
        st.calendars.map (fun e => e.calendar) = [calB] := by
  have hauth : authStep exchangeToken typedConfig self = .go self := by
    unfold authStep
    rw [hOpen]
    rfl
  have hbind : bindCalendars calendarDict ["B"] =
      ([{ calendar := calB,
          todayNode := DayNode.mk0 ("today" ++ toString 0)
            (calB.summary ++ " Today"),
          tomorrowNode := DayNode.mk0 ("tmrow" ++ toString 0)
            (calB.summary ++ " Tomorrow") }], []) := by
    unfold bindCalendars
    simp only [List.foldl_cons, List.foldl_nil, hB]
    simp
  unfold Controller.process_config
  simp only [hStarted, hTyped, hauth, hDict, hNames, hbind, Bool.not_true,
    Bool.false_eq_true, if_false]
  refine ⟨_, _, rfl, ?_, ?_⟩
  · unfold numIndicators Controller.refresh
    split <;>
      simp [hStarted, refreshCalendars_length]
  · unfold Controller.refresh
    split <;>
      simp [hStarted, refreshCalendars_map_calendar]

def demoFetchAB : Option String → CalendarPage := fun _ =>
  { items := [demoCalendarA, demoCalendarB], nextPageToken := none }

def demoExchange : String → Except String Unit := fun _ => .ok ()

def demoSelf0 : ControllerState :=
  { calendars := [], calendarList := none, serviceOpen := true,
    isStarted := true, storedConfig := none, errorLog := [], docs := none }

def demoConfigAB : ConfigInput :=
  { typedCustomData := some { token := "tok", calendarName := some ["A", "B"] } }

def demoConfigB : ConfigInput :=
  { typedCustomData := some { token := "tok", calendarName := some ["B"] } }

/-- The controller state reached by applying a configuration naming
`[A, B]` to a fresh started controller: it owns 4 day indicators. -/
def demoSelfAB : ControllerState :=
  ((Controller.process_config demoFetchAB 1 demoService demoClock demoExchange
      demoConfigAB demoSelf0).getD (demoSelf0, none)).1

theorem process_config_rebuilds_witness :
    numIndicators demoSelfAB = 4 ∧
    ∃ st ex,
      Controller.process_config demoFetchAB 1 demoService demoClock
          demoExchange demoConfigB demoSelfAB = some (st, ex) ∧
        numIndicators st = 2 ∧
        st.calendars.map (fun e => e.calendar) = [demoCalendarB] :=
  ⟨by decide,
    process_config_rebuilds demoFetchAB 1 demoService demoClock demoExchange
      demoConfigB { token := "tok", calendarName := some ["B"] } demoSelfAB
      [("A", demoCalendarA), ("B", demoCalendarB)] demoCalendarB
      (by decide) (by decide) rfl rfl (by decide) (by decide)⟩

def demoFetchOnlyA : Option String → CalendarPage := fun _ =>
  { items := [demoCalendarA], nextPageToken := none }

def demoConfigANoSuch : ConfigInput :=
  { typedCustomData :=
      some { token := "tok", calendarName := some ["A", "NoSuchCal"] } }

/-- C8: configuring `[A, "NoSuchCal"]` when only `A` exists in the
directory logs exactly one error for the missing name, skips it, keeps
going, and ends with exactly A's two indicators; no exception escapes. -/
theorem process_config_missing_name :
    (Controller.process_config demoFetchOnlyA 1 demoService demoClock
        demoExchange demoConfigANoSuch demoSelf0).map
        (fun p => (p.1.calendars.map (fun e => e.calendar.summary),
          p.1.errorLog, p.2)) =
      some (["A"], ["Cannot find configured calendar name NoSuchCal"], none) ∧
    (Controller.process_config demoFetchOnlyA 1 demoService demoClock
        demoExchange demoConfigANoSuch demoSelf0).map
        (fun p => numIndicators p.1) = some 2 := by
  decide

end HolidaysGoogle
